import Mathlib

/-!
Verification of the typst.ts font-metadata resolution subsystem and the
artifact export/import pipeline, as a shallow embedding of the Rust sources
`compiler/src/font/web/mod.rs`, `cli/src/export.rs` and `renderer/src/lib.rs`.

Rust strings are embedded as Lean `String`, machine integers as `Nat`,
fallible code as `Except`/`Option`, and code that can `panic!` or `unwrap`
as the three-valued `Outcome` type below.  Host JavaScript values are
embedded as the inductive `JsVal`; a host callback (a `js_sys::Function`
invoked through `call1`) is embedded as an explicit function from the
function value, the `this` context and the numeric argument to a
`JsCallOutcome` (a returned value or a thrown exception).
-/

deriving instance DecidableEq for Except

namespace TypstTs

/-- Outcome of running a piece of Rust code that may `panic!`/`unwrap` (process
abort), return an error value (`Err`), or succeed. -/
inductive Outcome (α : Type) where
  | panic (msg : String)
  | error (msg : String)
  | ok (a : α)
deriving DecidableEq, Repr

def Outcome.bind {α β : Type} : Outcome α → (α → Outcome β) → Outcome β
  | .panic m, _ => .panic m
  | .error m, _ => .error m
  | .ok a, f => f a

def Outcome.isOk {α : Type} : Outcome α → Bool
  | .ok _ => true
  | _ => false

/-- `lstartsWith hay pat` : `pat` is a prefix of `hay` (mirrors slice prefix test). -/
def lstartsWith : List Char → List Char → Bool
  | _, [] => true
  | [], _ :: _ => false
  | h :: hs, p :: ps => h == p && lstartsWith hs ps

/-- `lhasInfix hay pat` : `pat` occurs as a contiguous substring of `hay`. -/
def lhasInfix : List Char → List Char → Bool
  | [], pat => pat.isEmpty
  | h :: t, pat => lstartsWith (h :: t) pat || lhasInfix t pat

/-- Embedding of Rust `str::contains(pat)` (substring containment). -/
def rcontains (s pat : String) : Bool := lhasInfix s.data pat.data

/-- Embedding of Rust `String::make_ascii_lowercase` (ASCII-only lowering,
matching `Char.toLower`, which only lowers 'A'..'Z'). -/
def lowerStr (s : String) : String := String.mk (s.data.map Char.toLower)

/-! ## Data model: font identity records (`typst::font`) -/

inductive FontStyleM where
  | normal
  | italic
  | oblique
deriving DecidableEq, Repr

/-- `FontWeight` is a number 1..1000; named presets below. -/
abbrev FontWeightM := Nat

def WEIGHT_THIN : FontWeightM := 100
def WEIGHT_EXTRALIGHT : FontWeightM := 200
def WEIGHT_LIGHT : FontWeightM := 300
def WEIGHT_REGULAR : FontWeightM := 400
def WEIGHT_MEDIUM : FontWeightM := 500
def WEIGHT_SEMIBOLD : FontWeightM := 600
def WEIGHT_BOLD : FontWeightM := 700
def WEIGHT_EXTRABOLD : FontWeightM := 800
def WEIGHT_BLACK : FontWeightM := 900

/-- `FontStretch` is a ratio; embedded in thousandths. -/
abbrev FontStretchM := Nat

def STRETCH_ULTRA_CONDENSED : FontStretchM := 500
def STRETCH_EXTRA_CONDENSED : FontStretchM := 625
def STRETCH_CONDENSED : FontStretchM := 750
def STRETCH_SEMI_CONDENSED : FontStretchM := 875
def STRETCH_NORMAL : FontStretchM := 1000
def STRETCH_SEMI_EXPANDED : FontStretchM := 1125
def STRETCH_EXPANDED : FontStretchM := 1250
def STRETCH_EXTRA_EXPANDED : FontStretchM := 1500
def STRETCH_ULTRA_EXPANDED : FontStretchM := 2000

structure FontVariantM where
  style : FontStyleM
  weight : FontWeightM
  stretch : FontStretchM
deriving DecidableEq, Repr

structure FontFlagsM where
  monospace : Bool
  serif : Bool
deriving DecidableEq, Repr

structure FontInfoM where
  family : String
  variant : FontVariantM
  flags : FontFlagsM
  coverage : List Nat
deriving DecidableEq, Repr

/-! ## FontMetadataInference (`compiler/src/font/web/mod.rs`) -/

/-- Input of `infer_info_from_web_font`: the raw host-supplied strings. -/
structure WebFontInfo where
  family : String
  full_name : String
  postscript_name : String
  style : String
deriving DecidableEq, Repr

/-- Embedding of Rust `str::starts_with(pat)`. -/
def rstarts_with (s pat : String) : Bool := lstartsWith s.data pat.data

/-- Embedding of Rust `str::is_empty`. -/
def rIsEmpty (s : String) : Bool := s.data.isEmpty

/-- The generic-family prefix test in `font_family_web_to_typst`. -/
def genericPrefixed (family : String) : Bool :=
  rstarts_with family "Noto" || rstarts_with family "NewCM" ||
    rstarts_with family "NewComputerModern"

/-- Embedding of `font_family_web_to_typst`.  The external typographic-family
canonicalizer (`typst_typographic_family`, an external collaborator per the
spec) is passed in as `canon`. -/
def font_family_web_to_typst (canon : String → String) (family full_name : String) :
    Except String String :=
  let family := if genericPrefixed family then full_name else family
  if rIsEmpty family then
    Except.error "empty family (cannot infer from font.family and font.fullName)"
  else
    Except.ok (canon family)

/-- The weight keyword list scanned by `infer_info_from_web_font`, in source
order (light to heavy, with spelling variants). -/
def weightKeywords : List String :=
  ["thin", "extralight", "extra light", "extra-light", "light", "regular",
   "medium", "semibold", "semi bold", "semi-bold", "bold", "extrabold",
   "extra bold", "extra-bold", "black"]

/-- The per-keyword weight guess (the `match search_style` table). -/
def guessWeight : String → Option FontWeightM
  | "thin" => some WEIGHT_THIN
  | "extralight" => some WEIGHT_EXTRALIGHT
  | "extra light" => some WEIGHT_EXTRALIGHT
  | "extra-light" => some WEIGHT_EXTRALIGHT
  | "light" => some WEIGHT_LIGHT
  | "regular" => some WEIGHT_REGULAR
  | "medium" => some WEIGHT_MEDIUM
  | "semibold" => some WEIGHT_SEMIBOLD
  | "semi bold" => some WEIGHT_SEMIBOLD
  | "semi-bold" => some WEIGHT_SEMIBOLD
  | "bold" => some WEIGHT_BOLD
  | "extrabold" => some WEIGHT_EXTRABOLD
  | "extra bold" => some WEIGHT_EXTRABOLD
  | "extra-bold" => some WEIGHT_EXTRABOLD
  | "black" => some WEIGHT_BLACK
  | _ => none

/-- One step of the weight scan: either a definitive match (scope index 0,
stops all scanning) or the possibly-updated fallback weight. -/
inductive WScan where
  | def_ (w : FontWeightM)
  | fb (sec : Option FontWeightM)
deriving DecidableEq, Repr

/-- Inner loop of the weight scan over the enumerated search scopes, for one
keyword: a scope-index-0 match is definitive; a lower-priority match
overwrites the fallback (`secondary_weight`). -/
def scanW (kw : String) : List (Nat × String) → Option FontWeightM → WScan
  | [], sec => .fb sec
  | (idx, sc) :: rest, sec =>
    if rcontains sc kw then
      match guessWeight kw with
      | some g => if idx == 0 then .def_ g else scanW kw rest (some g)
      | none => scanW kw rest sec
    else scanW kw rest sec

/-- Outer loop of the weight scan over the keyword list (the labeled search loop), with
the running fallback; final weight is the definitive match, else the last
fallback, else `REGULAR`. -/
def weightSearch : List String → List (Nat × String) → Option FontWeightM → FontWeightM
  | [], _, sec => sec.getD WEIGHT_REGULAR
  | kw :: rest, scopes, sec =>
    match scanW kw scopes sec with
    | .def_ w => w
    | .fb sec' => weightSearch rest scopes sec'

/-- The stretch keyword list scanned by `infer_info_from_web_font`, in source
order. -/
def stretchKeywords : List String :=
  ["ultracondensed", "ultra_condensed", "ultra-condensed", "extracondensed",
   "extra_condensed", "extra-condensed", "condensed", "semicondensed",
   "semi_condensed", "semi-condensed", "normal", "semiexpanded",
   "semi_expanded", "semi-expanded", "expanded", "extraexpanded",
   "extra_expanded", "extra-expanded", "ultraexpanded", "ultra_expanded",
   "ultra-expanded"]

/-- The per-keyword stretch guess (the `match search_style` table; its default
arm is `None`, not a panic). -/
def guessStretch : String → Option FontStretchM
  | "ultracondensed" => some STRETCH_ULTRA_CONDENSED
  | "ultra_condensed" => some STRETCH_ULTRA_CONDENSED
  | "ultra-condensed" => some STRETCH_ULTRA_CONDENSED
  | "extracondensed" => some STRETCH_EXTRA_CONDENSED
  | "extra_condensed" => some STRETCH_EXTRA_CONDENSED
  | "extra-condensed" => some STRETCH_EXTRA_CONDENSED
  | "condensed" => some STRETCH_CONDENSED
  | "semicondensed" => some STRETCH_SEMI_CONDENSED
  | "semi_condensed" => some STRETCH_SEMI_CONDENSED
  | "semi-condensed" => some STRETCH_SEMI_CONDENSED
  | "normal" => some STRETCH_NORMAL
  | "semiexpanded" => some STRETCH_SEMI_EXPANDED
  | "semi_expanded" => some STRETCH_SEMI_EXPANDED
  | "semi-expanded" => some STRETCH_SEMI_EXPANDED
  | "expanded" => some STRETCH_EXPANDED
  | "extraexpanded" => some STRETCH_EXTRA_EXPANDED
  | "extra_expanded" => some STRETCH_EXTRA_EXPANDED
  | "extra-expanded" => some STRETCH_EXTRA_EXPANDED
  | "ultraexpanded" => some STRETCH_ULTRA_EXPANDED
  | "ultra_expanded" => some STRETCH_ULTRA_EXPANDED
  | "ultra-expanded" => some STRETCH_ULTRA_EXPANDED
  | _ => none

/-- Inner loop of the stretch scan for one keyword: only a scope-index-0 match
sets the stretch; matches at other indices have no effect. -/
def scanS (kw : String) : List (Nat × String) → Option FontStretchM
  | [] => none
  | (idx, sc) :: rest =>
    if rcontains sc kw then
      match guessStretch kw with
      | some g => if idx == 0 then some g else scanS kw rest
      | none => scanS kw rest
    else scanS kw rest

/-- Outer loop of the stretch scan; no fallback is retained, default `NORMAL`. -/
def stretchSearch : List String → List (Nat × String) → FontStretchM
  | [], _ => STRETCH_NORMAL
  | kw :: rest, scopes =>
    match scanS kw scopes with
    | some g => g
    | none => stretchSearch rest scopes

/-- The style axis, tested only against the lowercased full name. -/
def styleOf (full : String) : FontStyleM :=
  let italic := rcontains full "italic"
  let oblique := rcontains full "oblique" || rcontains full "slanted"
  match italic, oblique with
  | false, false => .normal
  | true, _ => .italic
  | _, true => .oblique

/-- One step of the flag guess: within one scope, "mono" is checked first and
is exclusive of "serif". -/
def flagsStep (fl : FontFlagsM) (sc : String) : FontFlagsM :=
  if rcontains sc "mono" then { fl with monospace := true }
  else if rcontains sc "serif" then { fl with serif := true }
  else fl

/-- The flag guess: fold over the three search scopes starting from the empty
flag set. -/
def flagsOf (scopes : List String) : FontFlagsM :=
  scopes.foldl flagsStep ⟨false, false⟩

/-- Embedding of `infer_info_from_web_font`. -/
def infer_info_from_web_font (canon : String → String) (w : WebFontInfo) :
    Except String FontInfoM :=
  match font_family_web_to_typst canon w.family w.full_name with
  | .error e => .error e
  | .ok family =>
    let full := lowerStr w.full_name
    let postscript := lowerStr w.postscript_name
    let style := lowerStr w.style
    let scopes := [(0, style), (1, postscript), (2, full)]
    Except.ok
      { family := family
        variant :=
          { style := styleOf full
            weight := weightSearch weightKeywords scopes none
            stretch := stretchSearch stretchKeywords scopes }
        flags := flagsOf [style, postscript, full]
        coverage := [0, 4294967295] }

/-! ## Spec-side formulations of the inference axes (from the spec's words,
for comparison with the source-derived scan loops above) -/

/-- Spec-side weight-match list: scanning the keyword list in order and, per
keyword, the scopes `a` (style, index 0), `b` (postscript, index 1), `c`
(full name, index 2) in priority order, collect each match as
(weight value, scope index). -/
def weightMatches (a b c : String) : List String → List (FontWeightM × Nat)
  | [] => []
  | kw :: rest =>
    (match guessWeight kw with
     | none => []
     | some g =>
       (if rcontains a kw then [(g, 0)] else []) ++
         (if rcontains b kw then [(g, 1)] else []) ++
         (if rcontains c kw then [(g, 2)] else [])) ++
      weightMatches a b c rest

/-- Spec-side weight resolution: the first scope-index-0 match is definitive;
otherwise the last fallback match wins; otherwise the running fallback,
defaulting to `REGULAR`. -/
def resolveW (ms : List (FontWeightM × Nat)) (sec : Option FontWeightM) : FontWeightM :=
  match ms.find? (fun p => p.2 == 0) with
  | some p => p.1
  | none =>
    match ms.getLast? with
    | some p => p.1
    | none => sec.getD WEIGHT_REGULAR

/-- Spec-side inferred weight of a descriptor whose lowercased search scopes
are `a` (style), `b` (postscript name), `c` (full name). -/
def weightSpec (a b c : String) : FontWeightM :=
  resolveW (weightMatches a b c weightKeywords) none

/-- Spec-side inferred stretch: only a match in scope index 0 (the lowercased
style string `a`) is accepted, taking the first matching keyword in list
order; the default is `NORMAL`. -/
def stretchSpec (a : String) : FontStretchM :=
  match stretchKeywords.find? (fun kw => rcontains a kw) with
  | some kw => (guessStretch kw).getD STRETCH_NORMAL
  | none => STRETCH_NORMAL

/-- Spec-side flags: a scope containing "mono" contributes Monospace; a scope
containing "serif" but not "mono" contributes Serif; union over scopes. -/
def flagsSpec (scopes : List String) : FontFlagsM :=
  ⟨scopes.any (fun sc => rcontains sc "mono"),
   scopes.any (fun sc => !rcontains sc "mono" && rcontains sc "serif")⟩

/-! ## Host JavaScript values and the font builder
(`FontBuilder::font_web_to_typst`) -/

/-- Host JavaScript values, by shape: strings, function objects,
`ArrayBuffer`s, values that deserialize as a `FontInfoCache`, and everything
else. -/
inductive JsVal where
  | str (s : String)
  | fn (id : Nat)
  | buffer (data : List Nat)
  | infoCache (infos : List FontInfoM)
  | other (id : Nat)
deriving DecidableEq, Repr

/-- `serde_wasm_bindgen::from_value::<FontInfoCache>(v)`: succeeds exactly on
values of the cache shape (the cache's `info` list of `FontInfo`). -/
def decodeCache : JsVal → Option (List FontInfoM)
  | .infoCache infos => some infos
  | _ => none

/-- `v.dyn_into::<ArrayBuffer>().ok()`. -/
def asBuffer : JsVal → Option (List Nat)
  | .buffer d => some d
  | _ => none

/-- The accumulator of the key/value loop in `font_web_to_typst`. -/
structure DescState where
  postscript_name : String
  family : String
  full_name : String
  style : String
  font_ref : Option JsVal
  font_blob_loader : Option JsVal
  font_cache : Option (List FontInfoM)
deriving DecidableEq, Repr

def initDescState : DescState := ⟨"", "", "", "", none, none, none⟩

/-- One iteration of the key/value loop.  `to_string` unwraps (`panic`) on a
non-string value; an unknown key is a `panic!`; a non-function `blob` value
is a propagated `Err` (`dyn_into()?`); an undecodable `info` value is
silently dropped (`.ok()`), overwriting any previous cache. -/
def stepDesc (st : DescState) (kv : String × JsVal) : Outcome DescState :=
  match kv.1 with
  | "postscriptName" =>
    match kv.2 with
    | .str s => .ok { st with postscript_name := s }
    | _ => .panic "expected string for web_font.postscriptName"
  | "family" =>
    match kv.2 with
    | .str s => .ok { st with family := s }
    | _ => .panic "expected string for web_font.family"
  | "fullName" =>
    match kv.2 with
    | .str s => .ok { st with full_name := s }
    | _ => .panic "expected string for web_font.fullName"
  | "style" =>
    match kv.2 with
    | .str s => .ok { st with style := s }
    | _ => .panic "expected string for web_font.style"
  | "ref" => .ok { st with font_ref := some kv.2 }
  | "info" => .ok { st with font_cache := decodeCache kv.2 }
  | "blob" =>
    match kv.2 with
    | .fn i => .ok { st with font_blob_loader := some (JsVal.fn i) }
    | _ => .error "expected Function for web_font.blob"
  | k => .panic ("unknown key for web_font: " ++ k)

/-- The key/value loop over the descriptor object's entries. -/
def buildDesc : DescState → List (String × JsVal) → Outcome DescState
  | st, [] => .ok st
  | st, kv :: rest => (stepDesc st kv).bind fun st' => buildDesc st' rest

/-- Embedding of `FontBuilder::font_web_to_typst` on an object descriptor
(the descriptor's entry list; a non-object input, a propagated `Err` before
the loop, is not modelled).  After the loop: the cached infos are used
verbatim when present, otherwise one info is inferred (`?` propagates the
inference error); then the font reference and the blob loader are required. -/
def font_web_to_typst (canon : String → String) (d : List (String × JsVal)) :
    Outcome (JsVal × JsVal × List FontInfoM) :=
  (buildDesc initDescState d).bind fun st =>
    (match st.font_cache with
     | some infos => Outcome.ok infos
     | none =>
       match infer_info_from_web_font canon
           ⟨st.family, st.full_name, st.postscript_name, st.style⟩ with
       | .error e => Outcome.error e
       | .ok i => Outcome.ok [i]).bind fun infos =>
      match st.font_ref with
      | none => .error ("Could not find font reference for " ++ st.family)
      | some r =>
        match st.font_blob_loader with
        | none => .error ("Could not find font blob loader for " ++ st.family)
        | some b => .ok (r, b, infos)

/-! ## Font slots and lazy loading (`WebFont`, `WebFontLoader`) -/

/-- Result of a synchronous call into the host environment: a returned value
or a thrown exception. -/
inductive JsCallOutcome where
  | ret (v : JsVal)
  | throw (e : String)
deriving DecidableEq, Repr

/-- The host environment: semantics of `Function::call1(this, arg)` for a
function value, a `this` context and one numeric argument. -/
abbrev HostEnv := JsVal → JsVal → Nat → JsCallOutcome

structure WebFontM where
  info : FontInfoM
  context : JsVal
  blob : JsVal
  index : Nat
deriving DecidableEq, Repr

/-- `WebFont::load`: `self.blob.call1(..).unwrap().dyn_into::<ArrayBuffer>().ok()`.
The `.unwrap()` aborts when the host callback throws; otherwise the cast
failure is absorbed into `none`. -/
def WebFontM.load (host : HostEnv) (f : WebFontM) : Outcome (Option (List Nat)) :=
  match host f.blob f.context f.index with
  | .throw _ => .panic "called Result::unwrap() on an Err value"
  | .ret v => .ok (asBuffer v)

structure WebFontLoaderM where
  font : WebFontM
  index : Nat
deriving DecidableEq, Repr

/-- `WebFontLoader::load` (`impl FontLoader`): `font.load()?` then decode the
bytes via the external `Font::new` (passed in as `fontNew`) at face index
`self.index`. -/
def WebFontLoaderM.load {Font : Type} (fontNew : List Nat → Nat → Option Font)
    (host : HostEnv) (l : WebFontLoaderM) : Outcome (Option Font) :=
  match WebFontM.load host l.font with
  | .panic m => .panic m
  | .error m => .error m
  | .ok none => .ok none
  | .ok (some blob) => .ok (fontNew blob l.index)

/-! ## BrowserFontSearcher (`add_web_fonts`) -/

/-- A registry slot: the `WebFontLoader` data as stored by `add_web_fonts`
(`slotIndex` is the registry index passed as `WebFont::index`, `faceIndex`
the enumeration index within the resource's info list). -/
structure SlotM where
  info : FontInfoM
  context : JsVal
  blob : JsVal
  slotIndex : Nat
  faceIndex : Nat
deriving DecidableEq, Repr

/-- The searcher's book/fonts pair (kept in lockstep). -/
structure SearcherState where
  book : List FontInfoM
  fonts : List SlotM
deriving DecidableEq, Repr

/-- The inner `for (i, info)` registration loop of `add_web_fonts`: push each
info onto the book and a slot onto the font list. -/
def registerFonts : SearcherState → JsVal → JsVal → Nat → List FontInfoM → SearcherState
  | s, _, _, _, [] => s
  | s, ref, blob, i, info :: rest =>
    registerFonts
      { book := s.book ++ [info]
        fonts := s.fonts ++ [⟨info, ref, blob, s.fonts.length, i⟩] }
      ref blob (i + 1) rest

/-- Embedding of `BrowserFontSearcher::add_web_fonts`: the `?` on
`font_web_to_typst` propagates the first per-item failure out of the whole
batch. -/
def addWebFonts (canon : String → String) :
    SearcherState → List (List (String × JsVal)) → Outcome SearcherState
  | s, [] => .ok s
  | s, d :: rest =>
    match font_web_to_typst canon d with
    | .panic m => .panic m
    | .error m => .error m
    | .ok (ref, blob, infos) => addWebFonts canon (registerFonts s ref blob 0 infos) rest

/-! ## ExportPipeline (`cli/src/export.rs`, `prepare_exporters`) -/

/-- Rust `Path::file_stem` semantics on a file name: the whole name when
there is no dot or when the only dot leads a hidden file; otherwise the
portion before the final dot. -/
def lastDotIdx (l : List Char) : Option Nat :=
  (l.enum.filterMap fun p => if p.2 == '.' then some p.1 else none).getLast?

def fileStem (name : String) : String :=
  match lastDotIdx name.data with
  | none => name
  | some 0 => name
  | some i => String.mk (name.data.take i)

/-- Rust `PathBuf::with_file_name`: drop the last component, append `name`. -/
def rustWithFileName (p : List String) (name : String) : List String :=
  p.dropLast ++ [name]

/-- Rust `Path::with_extension` on a single file name: stem plus new
extension. -/
def rustSetExtension (name ext : String) : String := fileStem name ++ "." ++ ext

/-- Rust `PathBuf::with_extension`: replace the extension of the last
component. -/
def rustWithExtension (p : List String) (ext : String) : List String :=
  match p.getLast? with
  | none => p
  | some last => p.dropLast ++ [rustSetExtension last ext]

/-- `CompileArgs` restricted to the fields read by `prepare_exporters`; paths
are embedded at component granularity (empty list = empty string). -/
structure CompileArgs where
  output : List String
  format : List String
  web_socket : String
deriving DecidableEq, Repr

/-- The entry file: its parent directory's components and its file name. -/
structure EntryFile where
  dir : List String
  name : String
deriving DecidableEq, Repr

/-- A constructed exporter bound to its target. -/
inductive ExporterM where
  | pdf (path : List String)
  | json (path : List String)
  | rmp (path : List String)
  | web_socket (url : String)
deriving DecidableEq, Repr

/-- Lexicographic comparison on code points (Rust `str` ordering for the
ASCII format tags). -/
def strLtChars : List Char → List Char → Bool
  | [], [] => false
  | [], _ :: _ => true
  | _ :: _, [] => false
  | a :: as, b :: bs =>
    if a.toNat < b.toNat then true
    else if b.toNat < a.toNat then false
    else strLtChars as bs

def strLt (a b : String) : Bool := strLtChars a.data b.data

def insertSorted (x : String) : List String → List String
  | [] => [x]
  | y :: ys => if strLt x y then x :: y :: ys else y :: insertSorted x ys

/-- Embedding of `Vec::sort` on strings (stable; equal keys are identical
strings, so any correct sort yields the same list). -/
def sortStrs : List String → List String
  | [] => []
  | x :: xs => insertSorted x (sortStrs xs)

/-- Embedding of `Vec::dedup` (removes consecutive duplicates). -/
def dedupConsec : List String → List String
  | [] => []
  | [a] => [a]
  | a :: b :: rest =>
    if a == b then dedupConsec (b :: rest) else a :: dedupConsec (b :: rest)

/-- The `for f in formats` construction loop: one exporter per tag, bound to
its deterministic target; an unknown tag is a `panic!`. -/
def buildExporters (output_dir : List String) (entryName ws : String) :
    List String → Outcome (List ExporterM × List ExporterM)
  | [] => .ok ([], [])
  | f :: rest =>
    match f with
    | "pdf" =>
      (buildExporters output_dir entryName ws rest).bind fun p =>
        .ok (ExporterM.pdf
          (rustWithExtension (rustWithFileName output_dir entryName) "pdf") :: p.1, p.2)
    | "json" =>
      (buildExporters output_dir entryName ws rest).bind fun p =>
        .ok (p.1, ExporterM.json
          (rustWithExtension (rustWithFileName output_dir entryName) "artifact.json") :: p.2)
    | "rmp" =>
      (buildExporters output_dir entryName ws rest).bind fun p =>
        .ok (p.1, ExporterM.rmp
          (rustWithExtension (rustWithFileName output_dir entryName) "artifact.rmp") :: p.2)
    | "web_socket" =>
      (buildExporters output_dir entryName ws rest).bind fun p =>
        .ok (p.1, ExporterM.web_socket
          (if rIsEmpty ws then "127.0.0.1:23625" else ws) :: p.2)
    | other => .panic ("unknown format: " ++ other)

/-- Embedding of `prepare_exporters`: resolve the output directory (pushing
the "output" marker), normalize the requested format set, then construct the
exporters. -/
def prepare_exporters (args : CompileArgs) (entry : EntryFile) :
    Outcome (List ExporterM × List ExporterM) :=
  let output_dir := (if args.output.isEmpty then entry.dir else args.output) ++ ["output"]
  let formats := args.format ++ (if rIsEmpty args.web_socket then [] else ["web_socket"])
  let formats := if formats.isEmpty then ["pdf", "json"] else formats
  let formats := dedupConsec (sortStrs formats)
  buildExporters output_dir entry.name args.web_socket formats

/-! ## RenderBridge (`renderer/src/lib.rs`) -/

def isHexDig (c : Char) : Bool :=
  c.isDigit || ('a' ≤ c && c ≤ 'f') || ('A' ≤ c && c ≤ 'F')

/-- Modelled from the spec: the external hexadecimal RGB(A) color parser
(`RgbaColor::from_str` of the external typst crate, an external
collaborator): an optional leading '#', then 3, 4, 6 or 8 hex digits; the
parsed color is represented by its digit string. -/
def parseRgba (s : String) : Option String :=
  let t := if rstarts_with s "#" then String.mk (s.data.drop 1) else s
  if (t.data.length == 3 || t.data.length == 4 || t.data.length == 6 ||
        t.data.length == 8) && t.data.all isHexDig then
    some t
  else none

/-- An artifact after the (external) serde decode: ordered pages (opaque
payload) plus the referenced font list. -/
structure ArtifactM (Page : Type) where
  pages : List Page
  fonts : List FontInfoM

/-- A reconstructed document. -/
structure DocumentM (Page : Type) where
  pages : List Page

/-- Modelled from the spec: `Artifact::to_document` (typst_ts_core code not
under src/) reconstructs a renderable document from the artifact via the
active font resolver, preserving the ordered page list. -/
def to_document {Page : Type} (a : ArtifactM Page) : DocumentM Page := ⟨a.pages⟩

/-- `TypstRenderer::render_internal`: rasterizes `document.pages[0]` (an
out-of-bounds index on an empty page list is a panic) with a fill color
parsed from `fill`; the external rasterizer `typst::export::render` is
passed in as `rasterize` (the pixel-per-point scale is threaded to it
opaquely). -/
def render_internal {Page ImageData : Type} (rasterize : Page → String → ImageData)
    (doc : DocumentM Page) (fill : String) : Outcome ImageData :=
  match doc.pages with
  | [] => .panic "index out of bounds: the len is 0 but the index is 0"
  | p :: _ =>
    match parseRgba fill with
    | none => .error "invalid color"
    | some c => .ok (rasterize p c)

/-- `TypstRenderer::render` on an already-decoded artifact (the
`serde_json::from_str` step is external): reconstruct the document, reject an
empty page list, then rasterize with scale 1.0 and white fill. -/
def render {Page ImageData : Type} (rasterize : Page → String → ImageData)
    (a : ArtifactM Page) : Outcome ImageData :=
  let document := to_document a
  if document.pages.length == 0 then .error "no pages in artifact"
  else render_internal rasterize document "ffffff"

/-! ## Concrete fixtures used by counterexamples and witnesses -/

/-- A descriptor whose family inference fails (empty family and full name). -/
def badDesc : List (String × JsVal) :=
  [("family", JsVal.str ""), ("fullName", JsVal.str ""),
   ("postscriptName", JsVal.str ""), ("style", JsVal.str ""),
   ("ref", JsVal.other 0), ("blob", JsVal.fn 0)]

/-- A well-formed descriptor. -/
def goodDesc : List (String × JsVal) :=
  [("family", JsVal.str "Good"), ("fullName", JsVal.str "Good Regular"),
   ("postscriptName", JsVal.str "Good-Regular"), ("style", JsVal.str "Regular"),
   ("ref", JsVal.other 1), ("blob", JsVal.fn 1)]

/-- A concrete web font value. -/
def c6Font : WebFontM :=
  ⟨⟨"F", ⟨FontStyleM.normal, 400, 1000⟩, ⟨false, false⟩, [0, 4294967295]⟩,
   JsVal.other 0, JsVal.fn 0, 0⟩

def c6Loader : WebFontLoaderM := ⟨c6Font, 0⟩

/-- A host whose blob callback throws. -/
def c6HostThrow : HostEnv := fun _ _ _ => .throw "callback exception"

/-- A host whose blob callback returns an ArrayBuffer. -/
def c6HostRet : HostEnv := fun _ _ _ => .ret (JsVal.buffer [1, 2, 3])

/-- A face decoder that always fails (a `Font::new` returning `None`). -/
def c6FontNew : List Nat → Nat → Option Nat := fun _ _ => none

/-! ## Equivalence of the source scan loops with the spec-side formulations -/

theorem resolveW_cons_zero (g : FontWeightM) (ms : List (FontWeightM × Nat))
    (sec : Option FontWeightM) : resolveW ((g, 0) :: ms) sec = g := by
  simp [resolveW, List.find?_cons_of_pos]

theorem resolveW_cons_nz (g : FontWeightM) (i : Nat) (hi : (i == 0) = false)
    (ms : List (FontWeightM × Nat)) (sec : Option FontWeightM) :
    resolveW ((g, i) :: ms) sec = resolveW ms (some g) := by
  unfold resolveW
  rw [List.find?_cons_of_neg _ (by simpa using hi)]
  cases hf : ms.find? (fun p => p.2 == 0) with
  | some p => rfl
  | none =>
    cases ms with
    | nil => rfl
    | cons x t =>
      rw [List.getLast?_cons_cons]
      cases hl : (x :: t).getLast? with
      | none => simp [List.getLast?_eq_none_iff] at hl
      | some p => rfl

theorem scanW_guess_none (kw : String) (hg : guessWeight kw = none) :
    ∀ (l : List (Nat × String)) (sec : Option FontWeightM), scanW kw l sec = .fb sec := by
  intro l
  induction l with
  | nil => intro sec; rfl
  | cons p t ih =>
    intro sec
    obtain ⟨i, s⟩ := p
    simp [scanW, hg, ih]

theorem weightSearch_eq (a b c : String) :
    ∀ (kws : List String) (sec : Option FontWeightM),
      weightSearch kws [(0, a), (1, b), (2, c)] sec =
        resolveW (weightMatches a b c kws) sec := by
  intro kws
  induction kws with
  | nil => intro sec; rfl
  | cons kw rest ih =>
    intro sec
    cases hg : guessWeight kw with
    | none =>
      rw [weightSearch, scanW_guess_none kw hg]
      simp only [weightMatches, hg, List.nil_append]
      exact ih sec
    | some g =>
      by_cases h0 : rcontains a kw
      · have hscan : scanW kw [(0, a), (1, b), (2, c)] sec = .def_ g := by
          simp [scanW, h0, hg]
        simp only [weightSearch, hscan]
        simp only [weightMatches, hg, h0, if_true, List.cons_append]
        rw [resolveW_cons_zero]
      · by_cases h1 : rcontains b kw <;> by_cases h2 : rcontains c kw
        · have hscan : scanW kw [(0, a), (1, b), (2, c)] sec = .fb (some g) := by
            simp [scanW, h0, h1, h2, hg]
          simp only [weightSearch, hscan]
          rw [ih]
          simp [weightMatches, hg, h0, h1, h2]
          rw [resolveW_cons_nz g 1 rfl, resolveW_cons_nz g 2 rfl]
        · have hscan : scanW kw [(0, a), (1, b), (2, c)] sec = .fb (some g) := by
            simp [scanW, h0, h1, h2, hg]
          simp only [weightSearch, hscan]
          rw [ih]
          simp [weightMatches, hg, h0, h1, h2]
          rw [resolveW_cons_nz g 1 rfl]
        · have hscan : scanW kw [(0, a), (1, b), (2, c)] sec = .fb (some g) := by
            simp [scanW, h0, h1, h2, hg]
          simp only [weightSearch, hscan]
          rw [ih]
          simp [weightMatches, hg, h0, h1, h2]
          rw [resolveW_cons_nz g 2 rfl]
        · have hscan : scanW kw [(0, a), (1, b), (2, c)] sec = .fb sec := by
            simp [scanW, h0, h1, h2, hg]
          simp only [weightSearch, hscan]
          rw [ih]
          simp [weightMatches, hg, h0, h1, h2]

theorem stretchSearch_eq (a b c : String) :
    ∀ kws : List String, (∀ kw ∈ kws, (guessStretch kw).isSome = true) →
      stretchSearch kws [(0, a), (1, b), (2, c)] =
        (match kws.find? (fun kw => rcontains a kw) with
         | some kw => (guessStretch kw).getD STRETCH_NORMAL
         | none => STRETCH_NORMAL) := by
  intro kws
  induction kws with
  | nil => intro _; rfl
  | cons kw rest ih =>
    intro hall
    have hkw : (guessStretch kw).isSome = true := hall kw (List.mem_cons_self kw rest)
    obtain ⟨g, hg⟩ := Option.isSome_iff_exists.mp hkw
    by_cases h0 : rcontains a kw
    · have hscan : scanS kw [(0, a), (1, b), (2, c)] = some g := by
        simp [scanS, h0, hg]
      rw [stretchSearch, hscan, List.find?_cons_of_pos _ h0]
      simp [hg]
    · have hscan : scanS kw [(0, a), (1, b), (2, c)] = none := by
        simp [scanS, h0, hg]
      rw [stretchSearch, hscan, List.find?_cons_of_neg _ (by simpa using h0)]
      exact ih (fun k hk => hall k (List.mem_cons_of_mem kw hk))

theorem foldl_flagsStep (l : List String) :
    ∀ fl : FontFlagsM,
      l.foldl flagsStep fl =
        ⟨fl.monospace || l.any (fun sc => rcontains sc "mono"),
         fl.serif || l.any (fun sc => !rcontains sc "mono" && rcontains sc "serif")⟩ := by
  induction l with
  | nil => intro fl; simp
  | cons sc t ih =>
    intro fl
    rw [List.foldl_cons, ih]
    by_cases hm : rcontains sc "mono" <;> by_cases hs : rcontains sc "serif" <;>
      simp [flagsStep, hm, hs, Bool.or_assoc]

theorem flagsOf_eq (scopes : List String) : flagsOf scopes = flagsSpec scopes := by
  rw [flagsOf, foldl_flagsStep]
  rfl

/-! ## Claim theorems for the inference axes -/

/-- C1: for every web font descriptor, the inferred weight is computed by
scanning the fixed weight keyword list thin..black in order and, per keyword,
the scopes [style, postscript_name, full_name] in priority order; a match in
scope index 0 is definitive and stops all scanning; a lower-priority match is
a fallback unconditionally overwritten by any later fallback match; the final
weight is the definitive match, else the last fallback, else REGULAR (all
formalized by `weightSpec`).  Moreover on the descriptor {family:"Example",
fullName:"Example Bold Italic", postscriptName:"Example-BoldItalic",
style:""} the inferred style is Italic and the inferred weight is BOLD. -/
theorem infer_weight_scan_and_example (canon : String → String) (w : WebFontInfo) :
    (∀ info, infer_info_from_web_font canon w = .ok info →
        info.variant.weight =
          weightSpec (lowerStr w.style) (lowerStr w.postscript_name)
            (lowerStr w.full_name)) ∧
    Except.map (fun i => (i.variant.style, i.variant.weight))
        (infer_info_from_web_font canon
          ⟨"Example", "Example Bold Italic", "Example-BoldItalic", ""⟩) =
      .ok (FontStyleM.italic, WEIGHT_BOLD) := by
  constructor
  · intro info h
    unfold infer_info_from_web_font at h
    cases hf : font_family_web_to_typst canon w.family w.full_name with
    | error e => rw [hf] at h; simp at h
    | ok fam =>
      rw [hf] at h
      simp only [Except.ok.injEq] at h
      subst h
      exact weightSearch_eq (lowerStr w.style) (lowerStr w.postscript_name)
        (lowerStr w.full_name) weightKeywords none
  · rfl

/-- Witness for C1: the weight-scan equation applied at the spec's example
descriptor. -/
theorem infer_weight_scan_and_example_witness :
    (⟨"Example", ⟨FontStyleM.italic, 700, 1000⟩, ⟨false, false⟩,
        [0, 4294967295]⟩ : FontInfoM).variant.weight =
      weightSpec (lowerStr "") (lowerStr "Example-BoldItalic")
        (lowerStr "Example Bold Italic") :=
  (infer_weight_scan_and_example id
      ⟨"Example", "Example Bold Italic", "Example-BoldItalic", ""⟩).1
    ⟨"Example", ⟨FontStyleM.italic, 700, 1000⟩, ⟨false, false⟩, [0, 4294967295]⟩
    (by decide)

/-- C2 counterexample: a descriptor with an empty family and a non-empty
full name does NOT resolve its family from the full name; the code
substitutes `full_name` only on the generic-family prefixes and an empty
family falls through to the MissingFamily error. -/
theorem infer_empty_family_cex :
    infer_info_from_web_font id ⟨"", "Foo Regular", "", ""⟩ =
      .error "empty family (cannot infer from font.family and font.fullName)" := by
  decide

/-- C2 amended: family resolution substitutes `full_name` only when the
family starts with one of the fixed prefixes Noto/NewCM/NewComputerModern
(not when the family is empty); the inference fails with the MissingFamily
error exactly when the string after that substitution is empty, so a
descriptor with an empty family fails even when its full name is non-empty. -/
theorem family_substitution_amended (canon : String → String) (fam full : String) :
    (font_family_web_to_typst canon fam full).isOk =
        !(rIsEmpty (if genericPrefixed fam then full else fam)) ∧
    font_family_web_to_typst canon "" full =
      .error "empty family (cannot infer from font.family and font.fullName)" := by
  constructor
  · unfold font_family_web_to_typst
    by_cases h : rIsEmpty (if genericPrefixed fam then full else fam) = true
    · simp [h, Except.isOk, Except.toBool]
    · simp [h, Except.isOk, Except.toBool]
  · rfl

/-- C4: for every web font descriptor, the inferred stretch retains no
fallback: only a keyword match in scope index 0 (the lowercased style
string) sets the stretch and the default is NORMAL (formalized by
`stretchSpec`, which reads only the style scope).  Moreover a descriptor
whose full name contains "condensed" but whose style is empty yields
stretch NORMAL. -/
theorem infer_stretch_scope0_only (canon : String → String) (w : WebFontInfo) :
    (∀ info, infer_info_from_web_font canon w = .ok info →
        info.variant.stretch = stretchSpec (lowerStr w.style)) ∧
    Except.map (fun i => i.variant.stretch)
        (infer_info_from_web_font canon
          ⟨"Example", "Example Condensed", "Example-Condensed", ""⟩) =
      .ok STRETCH_NORMAL := by
  constructor
  · intro info h
    unfold infer_info_from_web_font at h
    cases hf : font_family_web_to_typst canon w.family w.full_name with
    | error e => rw [hf] at h; simp at h
    | ok fam =>
      rw [hf] at h
      simp only [Except.ok.injEq] at h
      subst h
      exact stretchSearch_eq (lowerStr w.style) (lowerStr w.postscript_name)
        (lowerStr w.full_name) stretchKeywords (by decide)
  · rfl

/-- Witness for C4 at the spec's condensed example descriptor. -/
theorem infer_stretch_scope0_only_witness :
    (⟨"Example", ⟨FontStyleM.normal, 400, 1000⟩, ⟨false, false⟩,
        [0, 4294967295]⟩ : FontInfoM).variant.stretch =
      stretchSpec (lowerStr "") :=
  (infer_stretch_scope0_only id
      ⟨"Example", "Example Condensed", "Example-Condensed", ""⟩).1
    ⟨"Example", ⟨FontStyleM.normal, 400, 1000⟩, ⟨false, false⟩, [0, 4294967295]⟩
    (by decide)

/-- C7 counterexample: the descriptor with family "Courier Mono" (and all
other strings empty) does NOT get the Monospace flag: the family string is
not one of the three search scopes, so the flag set stays empty. -/
theorem infer_family_flags_cex :
    infer_info_from_web_font id ⟨"Courier Mono", "", "", ""⟩ =
        .ok ⟨"Courier Mono", ⟨FontStyleM.normal, 400, 1000⟩, ⟨false, false⟩,
          [0, 4294967295]⟩ ∧
    Except.map (fun i => i.flags.monospace)
        (infer_info_from_web_font id ⟨"Courier Mono", "", "", ""⟩) = .ok false := by
  constructor
  · decide
  · decide

/-- C7 amended: the flag set is computed per search scope (style, postscript
name, full name — the family string is not a scope) independently: a scope
containing "mono" sets Monospace, else a scope containing "serif" sets
Serif, and the final flags are the union across the three scopes
(formalized by `flagsSpec`).  A descriptor whose full name is "Courier
Mono" yields Monospace set and Serif unset. -/
theorem infer_flags_scope_union_amended (canon : String → String) (w : WebFontInfo) :
    (∀ info, infer_info_from_web_font canon w = .ok info →
        info.flags =
          flagsSpec [lowerStr w.style, lowerStr w.postscript_name,
            lowerStr w.full_name]) ∧
    Except.map (fun i => i.flags)
        (infer_info_from_web_font canon
          ⟨"Courier", "Courier Mono", "Courier-Mono", ""⟩) =
      .ok ⟨true, false⟩ := by
  constructor
  · intro info h
    unfold infer_info_from_web_font at h
    cases hf : font_family_web_to_typst canon w.family w.full_name with
    | error e => rw [hf] at h; simp at h
    | ok fam =>
      rw [hf] at h
      simp only [Except.ok.injEq] at h
      subst h
      exact flagsOf_eq [lowerStr w.style, lowerStr w.postscript_name,
        lowerStr w.full_name]
  · rfl

/-- Witness for the amended C7 at a descriptor whose full name contains
"mono". -/
theorem infer_flags_scope_union_amended_witness :
    (⟨"Courier", ⟨FontStyleM.normal, 400, 1000⟩, ⟨true, false⟩,
        [0, 4294967295]⟩ : FontInfoM).flags =
      flagsSpec [lowerStr "", lowerStr "Courier-Mono", lowerStr "Courier Mono"] :=
  (infer_flags_scope_union_amended id
      ⟨"Courier", "Courier Mono", "Courier-Mono", ""⟩).1
    ⟨"Courier", ⟨FontStyleM.normal, 400, 1000⟩, ⟨true, false⟩, [0, 4294967295]⟩
    (by decide)

/-! ## Claim theorems for the font builder and the batch loop -/

theorem Outcome.bind_assoc {α β γ : Type} (o : Outcome α) (f : α → Outcome β)
    (g : β → Outcome γ) : (o.bind f).bind g = o.bind (fun a => (f a).bind g) := by
  cases o <;> rfl

theorem buildDesc_append (xs ys : List (String × JsVal)) :
    ∀ st, buildDesc st (xs ++ ys) =
      (buildDesc st xs).bind fun st' => buildDesc st' ys := by
  induction xs with
  | nil => intro st; rfl
  | cons kv t ih =>
    intro st
    cases h : stepDesc st kv with
    | panic m => simp [buildDesc, h, Outcome.bind]
    | error m => simp [buildDesc, h, Outcome.bind]
    | ok st' => simp [buildDesc, h, Outcome.bind, ih st']

theorem stepDesc_cache_of_ne_info (st : DescState) (kv : String × JsVal)
    (h : kv.1 ≠ "info") (st' : DescState) (hs : stepDesc st kv = .ok st') :
    st'.font_cache = st.font_cache := by
  unfold stepDesc at hs
  split at hs
  all_goals try split at hs
  all_goals first
    | exact Outcome.noConfusion hs
    | exact absurd (by assumption : kv.1 = "info") h
    | (injection hs with hs; subst hs; rfl)

theorem buildDesc_cache_none :
    ∀ (xs : List (String × JsVal)), (∀ kv ∈ xs, kv.1 ≠ "info") →
      ∀ st : DescState, st.font_cache = none →
        ∀ st', buildDesc st xs = .ok st' → st'.font_cache = none := by
  intro xs
  induction xs with
  | nil =>
    intro _ st hst st' hb
    simp only [buildDesc] at hb
    injection hb with hb
    subst hb
    exact hst
  | cons kv t ih =>
    intro hx st hst st' hb
    simp only [buildDesc] at hb
    cases h : stepDesc st kv with
    | panic m => rw [h] at hb; cases hb
    | error m => rw [h] at hb; cases hb
    | ok st1 =>
      rw [h] at hb
      have hc : st1.font_cache = none := by
        rw [stepDesc_cache_of_ne_info st kv (hx kv (List.mem_cons_self kv t)) st1 h]
        exact hst
      exact ih (fun k hk => hx k (List.mem_cons_of_mem _ hk)) st1 hc st' hb

/-- C10: a descriptor whose "info" value fails to deserialize as a
FontInfoCache behaves exactly like the same descriptor without the "info"
entry: the cache is silently discarded and fresh inference runs, with no
error reported for the item. -/
theorem invalid_info_cache_ignored (canon : String → String)
    (pre post : List (String × JsVal)) (v : JsVal)
    (hv : decodeCache v = none) (hpre : ∀ kv ∈ pre, kv.1 ≠ "info") :
    font_web_to_typst canon (pre ++ ("info", v) :: post) =
      font_web_to_typst canon (pre ++ post) := by
  unfold font_web_to_typst
  rw [buildDesc_append, buildDesc_append]
  cases hb : buildDesc initDescState pre with
  | panic m => rfl
  | error m => rfl
  | ok st =>
    obtain ⟨ps, fam, fn, sty, r, bl, fc⟩ := st
    have hc : fc = none :=
      buildDesc_cache_none pre hpre initDescState rfl ⟨ps, fam, fn, sty, r, bl, fc⟩ hb
    subst hc
    have hstep : stepDesc ⟨ps, fam, fn, sty, r, bl, none⟩ ("info", v) =
        .ok ⟨ps, fam, fn, sty, r, bl, none⟩ := by
      show Outcome.ok (⟨ps, fam, fn, sty, r, bl, decodeCache v⟩ : DescState) = _
      rw [hv]
    simp only [Outcome.bind, buildDesc, hstep]

/-- Witness for C10: a concrete descriptor carrying an undecodable "info"
value resolves identically to the descriptor without it. -/
theorem invalid_info_cache_ignored_witness :
    font_web_to_typst id
        ([("family", JsVal.str "Foo"), ("fullName", JsVal.str "Foo Bold")] ++
          ("info", JsVal.str "garbage") ::
            [("ref", JsVal.other 0), ("blob", JsVal.fn 0)]) =
      font_web_to_typst id
        ([("family", JsVal.str "Foo"), ("fullName", JsVal.str "Foo Bold")] ++
          [("ref", JsVal.other 0), ("blob", JsVal.fn 0)]) :=
  invalid_info_cache_ignored id
    [("family", JsVal.str "Foo"), ("fullName", JsVal.str "Foo Bold")]
    [("ref", JsVal.other 0), ("blob", JsVal.fn 0)]
    (JsVal.str "garbage") rfl (by decide)

/-- C3 counterexample: in the batch [badDesc, goodDesc], the first
descriptor's MissingFamily failure aborts the whole `add_web_fonts` call
(the `?` propagates it); the remaining descriptor is NOT processed or
registered and no per-item isolation happens. -/
theorem add_web_fonts_batch_abort_cex :
    addWebFonts id ⟨[], []⟩ [badDesc, goodDesc] =
        .error "empty family (cannot infer from font.family and font.fullName)" ∧
    (addWebFonts id ⟨[], []⟩ [badDesc, goodDesc]).isOk = false := by
  constructor
  · decide
  · decide

/-- C3 amended: a per-item failure is fatal to the remainder of the batch:
`add_web_fonts` returns the failing item's error immediately, so descriptors
after the failing one are not processed, while each successful descriptor's
faces are registered before processing continues. -/
theorem add_web_fonts_amended (canon : String → String) (s : SearcherState)
    (d : List (String × JsVal)) (rest : List (List (String × JsVal))) :
    (∀ m, font_web_to_typst canon d = .error m →
        addWebFonts canon s (d :: rest) = .error m) ∧
    (∀ r b infos, font_web_to_typst canon d = .ok (r, b, infos) →
        addWebFonts canon s (d :: rest) =
          addWebFonts canon (registerFonts s r b 0 infos) rest) := by
  constructor
  · intro m hm
    simp only [addWebFonts, hm]
  · intro r b infos hok
    simp only [addWebFonts, hok]

/-- Witness for the amended C3: the error case at a concrete batch. -/
theorem add_web_fonts_amended_witness :
    addWebFonts id ⟨[], []⟩ [badDesc] =
      .error "empty family (cannot infer from font.family and font.fullName)" :=
  (add_web_fonts_amended id ⟨[], []⟩ badDesc []).1
    "empty family (cannot infer from font.family and font.fullName)" (by decide)

/-! ## Claim theorems for font loading -/

/-- C6 counterexample: a host blob callback that throws makes `WebFont::load`
panic (the `.unwrap()`), it does not yield `None`. -/
theorem web_font_load_throw_cex :
    WebFontM.load c6HostThrow c6Font =
        .panic "called Result::unwrap() on an Err value" ∧
    (WebFontM.load c6HostThrow c6Font).isOk = false := by
  constructor
  · rfl
  · rfl

/-- C6 amended: when the host callback returns a value, `WebFont::load`
never aborts: it yields the cast of the value (`none` whenever the value is
not an ArrayBuffer), and `WebFontLoader::load` turns a missing buffer or a
face-decode failure into `none`; but when the host callback throws,
`WebFont::load` panics via `unwrap`. -/
theorem web_font_load_amended {Font : Type} (fontNew : List Nat → Nat → Option Font)
    (host : HostEnv) (l : WebFontLoaderM) :
    (∀ v, host l.font.blob l.font.context l.font.index = .ret v →
        WebFontM.load host l.font = .ok (asBuffer v) ∧
        WebFontLoaderM.load fontNew host l =
          .ok (match asBuffer v with
               | none => none
               | some blob => fontNew blob l.index)) ∧
    (∀ e, host l.font.blob l.font.context l.font.index = .throw e →
        WebFontM.load host l.font =
          .panic "called Result::unwrap() on an Err value") := by
  constructor
  · intro v hv
    have h1 : WebFontM.load host l.font = .ok (asBuffer v) := by
      unfold WebFontM.load
      rw [hv]
    refine ⟨h1, ?_⟩
    unfold WebFontLoaderM.load
    rw [h1]
    cases asBuffer v <;> rfl
  · intro e he
    unfold WebFontM.load
    rw [he]

/-- Witness for the amended C6: a returning host callback yields the buffer;
the loader maps a failing face decode to `none`. -/
theorem web_font_load_amended_witness :
    (WebFontM.load c6HostRet c6Loader.font = .ok (asBuffer (JsVal.buffer [1, 2, 3])) ∧
      WebFontLoaderM.load c6FontNew c6HostRet c6Loader =
        .ok (match asBuffer (JsVal.buffer [1, 2, 3]) with
             | none => none
             | some blob => c6FontNew blob c6Loader.index)) :=
  (web_font_load_amended c6FontNew c6HostRet c6Loader).1 (JsVal.buffer [1, 2, 3]) rfl

/-! ## Claim theorems for the export pipeline -/

/-- C5 (recording the code bug the spec itself flags in its §7/§9): a
requested format list containing a tag outside the recognized vocabulary
makes `prepare_exporters` abort the process (`panic!("unknown format: ..")`);
no recoverable per-call error is surfaced to the caller. -/
theorem unknown_format_tag_aborts :
    prepare_exporters ⟨[], ["bmp"], ""⟩ ⟨["work"], "main.typ"⟩ =
        .panic "unknown format: bmp" ∧
    (prepare_exporters ⟨[], ["bmp"], ""⟩ ⟨["work"], "main.typ"⟩).isOk = false := by
  constructor
  · rfl
  · rfl

theorem buildExporters_artifact_paths (od : List String) (name ws : String) :
    ∀ (fs : List String) (ds arts : List ExporterM),
      buildExporters od name ws fs = .ok (ds, arts) →
      ∀ p : List String,
        (ExporterM.json p ∈ arts →
          p = rustWithExtension (rustWithFileName od name) "artifact.json") ∧
        (ExporterM.rmp p ∈ arts →
          p = rustWithExtension (rustWithFileName od name) "artifact.rmp") := by
  intro fs
  induction fs with
  | nil =>
    intro ds arts h p
    simp only [buildExporters, Outcome.ok.injEq, Prod.mk.injEq] at h
    obtain ⟨h1, h2⟩ := h
    subst h2
    exact ⟨fun hm => absurd hm (List.not_mem_nil _), fun hm => absurd hm (List.not_mem_nil _)⟩
  | cons f rest ih =>
    intro ds arts h p
    simp only [buildExporters] at h
    split at h
    · cases hr : buildExporters od name ws rest with
      | panic m => rw [hr] at h; exact Outcome.noConfusion h
      | error m => rw [hr] at h; exact Outcome.noConfusion h
      | ok q =>
        rw [hr] at h
        obtain ⟨ds', arts'⟩ := q
        simp only [Outcome.bind, Outcome.ok.injEq, Prod.mk.injEq] at h
        obtain ⟨h1, h2⟩ := h
        subst h2
        exact ih ds' arts' hr p
    · cases hr : buildExporters od name ws rest with
      | panic m => rw [hr] at h; exact Outcome.noConfusion h
      | error m => rw [hr] at h; exact Outcome.noConfusion h
      | ok q =>
        rw [hr] at h
        obtain ⟨ds', arts'⟩ := q
        simp only [Outcome.bind, Outcome.ok.injEq, Prod.mk.injEq] at h
        obtain ⟨h1, h2⟩ := h
        subst h2
        constructor
        · intro hm
          rcases List.mem_cons.mp hm with heq | hmem
          · exact ExporterM.json.inj heq
          · exact (ih ds' arts' hr p).1 hmem
        · intro hm
          rcases List.mem_cons.mp hm with heq | hmem
          · exact ExporterM.noConfusion heq
          · exact (ih ds' arts' hr p).2 hmem
    · cases hr : buildExporters od name ws rest with
      | panic m => rw [hr] at h; exact Outcome.noConfusion h
      | error m => rw [hr] at h; exact Outcome.noConfusion h
      | ok q =>
        rw [hr] at h
        obtain ⟨ds', arts'⟩ := q
        simp only [Outcome.bind, Outcome.ok.injEq, Prod.mk.injEq] at h
        obtain ⟨h1, h2⟩ := h
        subst h2
        constructor
        · intro hm
          rcases List.mem_cons.mp hm with heq | hmem
          · exact ExporterM.noConfusion heq
          · exact (ih ds' arts' hr p).1 hmem
        · intro hm
          rcases List.mem_cons.mp hm with heq | hmem
          · exact ExporterM.rmp.inj heq
          · exact (ih ds' arts' hr p).2 hmem
    · cases hr : buildExporters od name ws rest with
      | panic m => rw [hr] at h; exact Outcome.noConfusion h
      | error m => rw [hr] at h; exact Outcome.noConfusion h
      | ok q =>
        rw [hr] at h
        obtain ⟨ds', arts'⟩ := q
        simp only [Outcome.bind, Outcome.ok.injEq, Prod.mk.injEq] at h
        obtain ⟨h1, h2⟩ := h
        subst h2
        constructor
        · intro hm
          rcases List.mem_cons.mp hm with heq | hmem
          · exact ExporterM.noConfusion heq
          · exact (ih ds' arts' hr p).1 hmem
        · intro hm
          rcases List.mem_cons.mp hm with heq | hmem
          · exact ExporterM.noConfusion heq
          · exact (ih ds' arts' hr p).2 hmem
    · exact Outcome.noConfusion h

/-- C8: for every compile whose exporter construction succeeds, every
artifact exporter of an interchange format is bound to
resolved-output-dir/(entry-stem).artifact.(ext) with ext json for the
structured-text encoding and rmp for the compact binary one: the "output"
directory marker pushed by the resolution is overwritten by `with_file_name`
and the entry extension is replaced by `with_extension`. -/
theorem artifact_output_path (args : CompileArgs) (entry : EntryFile)
    (ds arts : List ExporterM)
    (h : prepare_exporters args entry = .ok (ds, arts)) (p : List String) :
    (ExporterM.json p ∈ arts →
        p = (if args.output.isEmpty then entry.dir else args.output) ++
          [fileStem entry.name ++ ".artifact.json"]) ∧
    (ExporterM.rmp p ∈ arts →
        p = (if args.output.isEmpty then entry.dir else args.output) ++
          [fileStem entry.name ++ ".artifact.rmp"]) := by
  have hb := buildExporters_artifact_paths
      ((if args.output.isEmpty then entry.dir else args.output) ++ ["output"])
      entry.name args.web_socket _ ds arts h p
  have hpath : ∀ ext : String,
      rustWithExtension (rustWithFileName
        ((if args.output.isEmpty then entry.dir else args.output) ++ ["output"])
        entry.name) ext =
      (if args.output.isEmpty then entry.dir else args.output) ++
        [fileStem entry.name ++ "." ++ ext] := by
    intro ext
    unfold rustWithFileName rustWithExtension rustSetExtension
    rw [List.dropLast_concat, List.getLast?_concat, List.dropLast_concat]
  constructor
  · intro hm
    rw [hb.1 hm, hpath "artifact.json", String.append_assoc]
    rfl
  · intro hm
    rw [hb.2 hm, hpath "artifact.rmp", String.append_assoc]
    rfl

/-- Witness for C8: a concrete compile requesting the structured-text
interchange format. -/
theorem artifact_output_path_witness :
    (["d", "m.artifact.json"] : List String) =
      (if ([] : List String).isEmpty then ["d"] else []) ++
        [fileStem "m.typ" ++ ".artifact.json"] :=
  (artifact_output_path ⟨[], ["json"], ""⟩ ⟨["d"], "m.typ"⟩ []
      [ExporterM.json ["d", "m.artifact.json"]] (by decide)
      ["d", "m.artifact.json"]).1 (by decide)

/-! ## Claim theorem for the render bridge -/

/-- C9: rendering an artifact whose decoded page list is empty returns the
"no pages in artifact" user-visible error and produces no pixel buffer;
rasterization is attempted only when the reconstructed document has at least
one page, and then exactly the first page is rasterized (with the fixed
white fill). -/
theorem render_empty_pages_and_first_page {Page ImageData : Type}
    (rasterize : Page → String → ImageData) (a : ArtifactM Page) :
    (a.pages = [] → render rasterize a = .error "no pages in artifact") ∧
    (∀ p rest, a.pages = p :: rest →
        render rasterize a = .ok (rasterize p "ffffff")) := by
  constructor
  · intro hp
    simp [render, to_document, hp]
  · intro p rest hp
    unfold render to_document
    rw [hp]
    have hcol : parseRgba "ffffff" = some "ffffff" := rfl
    simp [render_internal, hcol]

/-- Witness for C9: the empty artifact is rejected; a one-page artifact
rasterizes its single (first) page. -/
theorem render_empty_pages_and_first_page_witness :
    render (fun (p : Nat) (_ : String) => p + 1) (⟨[], []⟩ : ArtifactM Nat) =
        .error "no pages in artifact" ∧
    render (fun (p : Nat) (_ : String) => p + 1) (⟨[7], []⟩ : ArtifactM Nat) =
      .ok ((fun (p : Nat) (_ : String) => p + 1) 7 "ffffff") :=
  ⟨(render_empty_pages_and_first_page (fun p _ => p + 1) ⟨[], []⟩).1 rfl,
   (render_empty_pages_and_first_page (fun p _ => p + 1) ⟨[7], []⟩).2 7 [] rfl⟩

end TypstTs
